import Mathlib

/-!
Verification of the xyplot layout & compositing engine.

The definitions below are a shallow embedding of `src/main.rs`:
* the `numeric` module's conversion helpers (`f32_to_i32`, `i32_to_u32`,
  `u32_to_i32`, `f32_to_u8`),
* the per-pixel write performed by the glyph-outline callback inside
  `draw_text` (lines 175-193),
* the image-copy loop and the whole of `save_image_plot` (validation,
  grid geometry, canvas allocation, label drawing, pixel copying).

f32 values are modelled as an inductive type: NaN, the two infinities,
and finite values carried as exact rationals.  All branch conditions of
the source (`is_nan`, `>=`, `<=`) are exact IEEE operations, so the
model is faithful on them; `x.round()` in Rust rounds half away from
zero, embedded as `roundAway`.  Machine-integer arithmetic that can
wrap (u32 `+`/`*` and the u8 multiply inside the blend expression,
release-mode semantics) is embedded as `Nat` arithmetic with an
explicit `% 2^w`.  Rust panics (index out of bounds, division by zero)
are modelled by an explicit `panic` outcome.
-/

/-- 2^32, the modulus of u32 arithmetic. -/
def U32 : ℕ := 4294967296

/-- Round half away from zero, the semantics of Rust's `f32::round`. -/
def roundAway (q : ℚ) : ℤ := if 0 ≤ q then ⌊q + 1/2⌋ else -⌊-q + 1/2⌋

/-- Model of an `f32` value: NaN, the infinities, or a finite value
represented exactly as a rational. -/
inductive F32 where
  | nan : F32
  | inf : F32
  | ninf : F32
  | fin : ℚ → F32
deriving DecidableEq

/-- `F32_MAX_SAFE_INT` from the source: 2^24. -/
def F32_MAX_SAFE_INT : ℚ := 16777216

/-- `numeric::f32_to_i32`: NaN to 0; values at or above 2^24 clamp to
`i32::MAX`; values at or below -2^24 clamp to `i32::MIN`; otherwise
round to nearest (half away from zero). -/
def f32_to_i32 : F32 → ℤ
  | .nan => 0
  | .inf => 2147483647
  | .ninf => -2147483648
  | .fin q =>
      if F32_MAX_SAFE_INT ≤ q then 2147483647
      else if q ≤ -F32_MAX_SAFE_INT then -2147483648
      else roundAway q

/-- `numeric::i32_to_u32`: clamp negative values to 0. -/
def i32_to_u32 (x : ℤ) : ℕ := (max x 0).toNat

/-- `numeric::u32_to_i32`: values above `i32::MAX` clamp to `i32::MAX`. -/
def u32_to_i32 (x : ℕ) : ℤ := if 2147483647 < x then 2147483647 else (x : ℤ)

/-- `numeric::f32_to_u8`: NaN to 0; clamp to `0..=255`; otherwise round
to nearest (half away from zero). -/
def f32_to_u8 : F32 → ℕ
  | .nan => 0
  | .inf => 255
  | .ninf => 0
  | .fin q =>
      if 255 ≤ q then 255
      else if q ≤ 0 then 0
      else (roundAway q).toNat

/-- An RGB pixel (each channel a u8 value, carried as `Nat`). -/
structure Rgb where
  r : ℕ
  g : ℕ
  b : ℕ
deriving DecidableEq, Repr

/-- A decoded source image: immutable pixel buffer with dimensions. -/
structure Img where
  width : ℕ
  height : ℕ
  pix : ℕ → ℕ → Rgb

/-- The mutable canvas (`RgbImage`): dimensions plus pixel contents. -/
structure Canvas where
  width : ℕ
  height : ℕ
  pix : ℕ → ℕ → Rgb

attribute [ext] Canvas

/-- An in-bounds pixel store (the effect of `put_pixel` / writing through
`get_pixel_mut` when its precondition holds). -/
def Canvas.set (c : Canvas) (x y : ℕ) (v : Rgb) : Canvas :=
  { c with pix := fun a b => if a = x ∧ b = y then v else c.pix a b }

/-- `put_pixel` / `get_pixel_mut` with their buffer-access precondition:
out-of-bounds access is a panic, modelled as `none`. -/
def Canvas.setChecked (c : Canvas) (x y : ℕ) (v : Rgb) : Option Canvas :=
  if x < c.width ∧ y < c.height then some (c.set x y v) else none

/-- Wrap-around of i32 addition results (release-mode overflow
semantics). -/
def i32wrap (z : ℤ) : ℤ := (z + 2147483648) % (U32 : ℤ) - 2147483648

/-- One channel of the pixel value written by `draw_text`'s callback:
`(255 - coverage) + coverage * color / 255` in u8 arithmetic (the u8
multiply wraps mod 256 in release mode). -/
def blendChannel (c v : ℕ) : ℕ := (255 - c) + (c * v) % 256 / 255

/-- The x canvas coordinate targeted by the outline callback:
`f32_to_i32(bounds.min.x) + u32_to_i32(gx)` (i32 addition). -/
def glyphTargetX (bmx : F32) (gx : ℕ) : ℤ := i32wrap (f32_to_i32 bmx + u32_to_i32 gx)

/-- The y canvas coordinate targeted by the outline callback. -/
def glyphTargetY (bmy : F32) (gy : ℕ) : ℤ := i32wrap (f32_to_i32 bmy + u32_to_i32 gy)

/-- `coverage * 255.0`, the scaling applied before `f32_to_u8`.  Finite
values multiply exactly (a modelling idealisation of f32 rounding; the
endpoints 0 and 1 relevant to the claims are exact in f32). -/
def f32Mul255 : F32 → F32
  | .nan => .nan
  | .inf => .inf
  | .ninf => .ninf
  | .fin q => .fin (q * 255)

/-- The body of the `outlined.draw` callback in `draw_text`
(src/main.rs lines 175-193): compute the target coordinate from the
glyph bounds, bounds-check against the canvas, and overwrite the pixel
with the blended value. -/
def drawTextPixel (canvas : Canvas) (bmx bmy : F32) (gx gy : ℕ)
    (coverage : F32) (color : Rgb) : Canvas :=
  let x := glyphTargetX bmx gx
  let y := glyphTargetY bmy gy
  if 0 ≤ x ∧ 0 ≤ y ∧ x < u32_to_i32 canvas.width ∧ y < u32_to_i32 canvas.height then
    let c := f32_to_u8 (f32Mul255 coverage)
    canvas.set (i32_to_u32 x) (i32_to_u32 y)
      { r := blendChannel c color.r, g := blendChannel c color.g, b := blendChannel c color.b }
  else canvas

/-- The same callback body with the buffer access performed through the
checked store, so that a violated precondition shows up as `none`. -/
def drawTextPixelChecked (canvas : Canvas) (bmx bmy : F32) (gx gy : ℕ)
    (coverage : F32) (color : Rgb) : Option Canvas :=
  let x := glyphTargetX bmx gx
  let y := glyphTargetY bmy gy
  if 0 ≤ x ∧ 0 ≤ y ∧ x < u32_to_i32 canvas.width ∧ y < u32_to_i32 canvas.height then
    let c := f32_to_u8 (f32Mul255 coverage)
    canvas.setChecked (i32_to_u32 x) (i32_to_u32 y)
      { r := blendChannel c color.r, g := blendChannel c color.g, b := blendChannel c color.b }
  else some canvas

/-- One outline-coverage callback invocation: the glyph bounds origin,
the offset within the bounds, and the coverage value. -/
structure PxWrite where
  bmx : F32
  bmy : F32
  gx : ℕ
  gy : ℕ
  cov : F32

/-- The full sequence of outline-coverage writes of one `draw_text`
call, folded over the canvas.  The list of writes is produced by the
font rasterizer (external collaborator) and is a pure function of the
call's arguments. -/
def drawGlyphPixels (canvas : Canvas) (ps : List PxWrite) (color : Rgb) : Canvas :=
  ps.foldl (fun c p => drawTextPixel c p.bmx p.bmy p.gx p.gy p.cov color) canvas

/-- Whether a callback write (at canvas dimensions `w × h`) stores to
coordinate `(x, y)`. -/
def pxHit (p : PxWrite) (w h x y : ℕ) : Prop :=
  0 ≤ glyphTargetX p.bmx p.gx ∧ 0 ≤ glyphTargetY p.bmy p.gy ∧
  glyphTargetX p.bmx p.gx < u32_to_i32 w ∧ glyphTargetY p.bmy p.gy < u32_to_i32 h ∧
  i32_to_u32 (glyphTargetX p.bmx p.gx) = x ∧ i32_to_u32 (glyphTargetY p.bmy p.gy) = y

instance (p : PxWrite) (w h x y : ℕ) : Decidable (pxHit p w h x y) := by
  unfold pxHit; infer_instance

/-- The pixel value a callback write stores: a function of the coverage
and the requested color only. -/
def pxVal (p : PxWrite) (color : Rgb) : Rgb :=
  let c := f32_to_u8 (f32Mul255 p.cov)
  { r := blendChannel c color.r, g := blendChannel c color.g, b := blendChannel c color.b }

/-- One iteration of the image-copy loop in `save_image_plot`
(src/main.rs lines 307-311): write pixel `(x, y)` of the source image
to `(x_start + x, y_start + y)` (u32 addition) when that coordinate is
inside the canvas, else drop the write. -/
def copyPixel (c : Canvas) (img : Img) (x_start y_start x y : ℕ) : Canvas :=
  if (x_start + x) % U32 < c.width ∧ (y_start + y) % U32 < c.height then
    c.set ((x_start + x) % U32) ((y_start + y) % U32) (img.pix x y)
  else c

/-- The same loop iteration with the store performed through the checked
access, so that a violated `put_pixel` precondition shows up as `none`. -/
def copyPixelChecked (c : Canvas) (img : Img) (x_start y_start x y : ℕ) : Option Canvas :=
  if (x_start + x) % U32 < c.width ∧ (y_start + y) % U32 < c.height then
    c.setChecked ((x_start + x) % U32) ((y_start + y) % U32) (img.pix x y)
  else some c

/-- The whole image-copy loop: `for (x, y, pixel) in img.enumerate_pixels()`,
row-major over the source image. -/
def copyImage (c : Canvas) (img : Img) (x_start y_start : ℕ) : Canvas :=
  (List.range img.height).foldl
    (fun cy y => (List.range img.width).foldl
      (fun cx x => copyPixel cx img x_start y_start x y) cy)
    c

/-- `u32::div_ceil` as used for the column count:
`a / b + (if a % b == 0 then 0 else 1)`. -/
def divCeil (n r : ℕ) : ℕ := n / r + if n % r = 0 then 0 else 1

/-- The left padding: the configured 40 when some row label is a
non-empty string, else 0 (`row_labels.iter().any(|l| !l.is_empty())`). -/
def leftPad (row_labels : List String) : ℕ :=
  if row_labels.any (fun l => !l.isEmpty) then 40 else 0

/-- Whether any label class is present:
`!labels.is_empty() || !row_labels.is_empty() || !column_labels.is_empty()`. -/
def hasLabels (labels row_labels column_labels : List String) : Bool :=
  !labels.isEmpty || !row_labels.isEmpty || !column_labels.isEmpty

/-- The request handed to `save_image_plot`, with the image files
already decoded (image decode/encode is an external collaborator). -/
structure Args where
  images : List Img
  labels : List String
  rows : ℕ
  row_labels : List String
  column_labels : List String

/-- The reported (`anyhow::bail!` / `?`) failures of `save_image_plot`. -/
inductive PlotError where
  | labelCountMismatch : PlotError
  | rowLabelCountMismatch : PlotError
  | columnLabelCountMismatch : PlotError
  | tooManyImages : PlotError
deriving DecidableEq, Repr

/-- Outcome of a `save_image_plot` run: a reported error (before any
canvas exists), a panic (index out of bounds / division by zero), or
the finished canvas handed to the save collaborator. -/
inductive PlotOutcome where
  | err : PlotError → PlotOutcome
  | panic : PlotOutcome
  | ok : Canvas → PlotOutcome

/-- Whether a reported error is one of the label-count configuration
errors. -/
def PlotError.isConfig : PlotError → Bool
  | .labelCountMismatch => true
  | .rowLabelCountMismatch => true
  | .columnLabelCountMismatch => true
  | .tooManyImages => false

/-- Whether an outcome is a reported configuration error. -/
def isConfigErrorOutcome : PlotOutcome → Bool
  | .err e => e.isConfig
  | _ => false

/-- The column-label pass of `save_image_plot` (src/main.rs lines
257-269). -/
def drawColumnLabels (textDraw : Canvas → String → ℤ → ℤ → Canvas)
    (column_labels : List String) (image_width left_padding label_height : ℕ)
    (c : Canvas) : Canvas :=
  column_labels.enum.foldl (fun c pair =>
      textDraw c pair.2
        (u32_to_i32 ((pair.1 * image_width + left_padding + image_width / 2) % U32))
        (u32_to_i32 label_height / 2)) c

/-- One iteration of the image placement loop (src/main.rs lines
272-312): derive the cell origin, draw the per-image and row labels,
then copy the image. -/
def placeImage (textDraw : Canvas → String → ℤ → ℤ → Canvas)
    (labels row_labels : List String)
    (cols image_width image_height row_height left_padding top_padding label_height : ℕ)
    (c : Canvas) (pair : ℕ × Img) : Canvas :=
  let i := pair.1
  let row := i / cols
  let col := i % cols
  let x_start := (col * image_width + left_padding) % U32
  let y_start := (row * row_height + top_padding) % U32
  let c1 := if i < labels.length then
      textDraw c (labels.getD i "")
        (u32_to_i32 ((x_start + image_width / 2) % U32))
        (u32_to_i32 (y_start - label_height))
    else c
  let c2 := if row < row_labels.length then
      textDraw c1 (row_labels.getD row "") 5
        (u32_to_i32 ((y_start + image_height / 2) % U32))
    else c1
  copyImage c2 pair.2 x_start y_start

/-- The rendering part of `save_image_plot` (everything after
validation succeeds, src/main.rs lines 223-312): geometry from the
first image, white canvas, column labels, then per image its labels and
the pixel copy.  `textDraw` abstracts `draw_text` at the fixed scale,
font and color (its writes are the external rasterizer's coverage
callbacks folded through `drawTextPixel`). -/
def renderPlot (textDraw : Canvas → String → ℤ → ℤ → Canvas)
    (images : List Img) (labels row_labels column_labels : List String)
    (rows cols : ℕ) (first : Img) : Canvas :=
  let image_width := first.width
  let image_height := first.height
  let top_padding : ℕ := 50
  let label_height : ℕ := 30
  let left_padding := leftPad row_labels
  let has_labels := hasLabels labels row_labels column_labels
  let row_height := (image_height + if has_labels then top_padding else 0) % U32
  let canvas_height := (row_height * rows + if has_labels then top_padding else 0) % U32
  let canvas_width := (image_width * cols + left_padding) % U32
  let canvas0 : Canvas :=
    { width := canvas_width, height := canvas_height,
      pix := fun _ _ => { r := 255, g := 255, b := 255 } }
  let canvas1 := drawColumnLabels textDraw column_labels image_width left_padding label_height canvas0
  images.enum.foldl
    (placeImage textDraw labels row_labels cols image_width image_height
      row_height left_padding top_padding label_height) canvas1

/-- `save_image_plot` (src/main.rs lines 199-321): validation in source
order, then the render.  `.err` outcomes abort before any canvas is
allocated; `.panic` models the index-out-of-bounds on `images[0]` for
an empty image list and the division by zero in `div_ceil` for
`rows = 0`; `.ok` is the finished canvas handed to the external save
collaborator (the only path on which an output file is written). -/
def save_image_plot (textDraw : Canvas → String → ℤ → ℤ → Canvas)
    (args : Args) : PlotOutcome :=
  let images := args.images
  let labels := args.labels
  let row_labels := args.row_labels
  let column_labels := args.column_labels
  let rows := args.rows
  if labels ≠ [] ∧ labels.length ≠ images.length then
    .err .labelCountMismatch
  else if row_labels ≠ [] ∧ row_labels.length ≠ rows then
    .err .rowLabelCountMismatch
  else if U32 ≤ images.length then
    .err .tooManyImages
  else if rows = 0 then
    .panic
  else
    let cols := divCeil images.length rows
    if column_labels ≠ [] ∧ column_labels.length ≠ cols then
      .err .columnLabelCountMismatch
    else
      match images with
      | [] => .panic
      | first :: _ =>
          .ok (renderPlot textDraw images labels row_labels column_labels rows cols first)

/-- Canvas width of a successful outcome. -/
def outWidth : PlotOutcome → Option ℕ
  | .ok c => some c.width
  | _ => none

/-- Canvas height of a successful outcome. -/
def outHeight : PlotOutcome → Option ℕ
  | .ok c => some c.height
  | _ => none

/-- Pixel of a successful outcome's canvas. -/
def outPix (o : PlotOutcome) (x y : ℕ) : Option Rgb :=
  match o with
  | .ok c => some (c.pix x y)
  | _ => none

/-- A text-draw instance that leaves the canvas unchanged (the case of
glyphs with no outline: the rasterizer contributes no writes). -/
def trivialDraw : Canvas → String → ℤ → ℤ → Canvas := fun c _ _ _ => c

/-- A 100 by 100 test image with constant pixel value (10, 20, 30). -/
def imgA : Img := { width := 100, height := 100, pix := fun _ _ => { r := 10, g := 20, b := 30 } }

/-- A 100 by 100 test image with constant pixel value (40, 50, 60). -/
def imgB : Img := { width := 100, height := 100, pix := fun _ _ => { r := 40, g := 50, b := 60 } }

/-- A 150 by 100 test image with constant pixel value (200, 0, 0):
wider than the reference cell. -/
def imgC : Img := { width := 150, height := 100, pix := fun _ _ => { r := 200, g := 0, b := 0 } }

/-- Scenario A of the spec: two 100 by 100 images, one row, no labels. -/
def argsA : Args :=
  { images := [imgA, imgB], labels := [], rows := 1, row_labels := [], column_labels := [] }

/-- Three images in two rows, no labels; the third image is wider than
the reference cell. -/
def argsC : Args :=
  { images := [imgA, imgB, imgC], labels := [], rows := 2, row_labels := [], column_labels := [] }

/-- Zero images, otherwise default arguments. -/
def argsEmpty : Args :=
  { images := [], labels := [], rows := 1, row_labels := [], column_labels := [] }

/-- One image but two per-image labels: a label-count mismatch. -/
def argsMismatch : Args :=
  { images := [imgA], labels := ["a", "b"], rows := 1, row_labels := [], column_labels := [] }
/-- A 10 by 10 canvas whose pixels are all black. -/
def blackCanvas : Canvas :=
  { width := 10, height := 10, pix := fun _ _ => { r := 0, g := 0, b := 0 } }

/-- A 10 by 10 canvas whose pixels are all white. -/
def whiteCanvas : Canvas :=
  { width := 10, height := 10, pix := fun _ _ => { r := 255, g := 255, b := 255 } }

lemma roundAway_nonneg {q : ℚ} (h : 0 ≤ q) : 0 ≤ roundAway q := by
  unfold roundAway
  rw [if_pos h]
  have : (0 : ℚ) ≤ q + 1/2 := by linarith
  exact_mod_cast Int.floor_nonneg.mpr this

/-- Rounding half away from zero lands within 1/2 of the input. -/
lemma roundAway_near (q : ℚ) : |(roundAway q : ℚ) - q| ≤ 1/2 := by
  unfold roundAway
  by_cases h : 0 ≤ q
  · rw [if_pos h]
    have h1 : (⌊q + 1/2⌋ : ℚ) ≤ q + 1/2 := Int.floor_le _
    have h2 : q + 1/2 < ⌊q + 1/2⌋ + 1 := Int.lt_floor_add_one _
    rw [abs_le]
    constructor <;> linarith
  · rw [if_neg h]
    have h1 : (⌊-q + 1/2⌋ : ℚ) ≤ -q + 1/2 := Int.floor_le _
    have h2 : -q + 1/2 < ⌊-q + 1/2⌋ + 1 := Int.lt_floor_add_one _
    rw [abs_le]
    constructor <;> push_cast <;> linarith

lemma f32_to_i32_range (v : F32) :
    -2147483648 ≤ f32_to_i32 v ∧ f32_to_i32 v ≤ 2147483647 := by
  cases v with
  | nan => constructor <;> norm_num [f32_to_i32]
  | inf => constructor <;> norm_num [f32_to_i32]
  | ninf => constructor <;> norm_num [f32_to_i32]
  | fin q =>
      simp only [f32_to_i32]
      split_ifs with h1 h2
      · norm_num
      · norm_num
      · push_neg at h1 h2
        have hnear := roundAway_near q
        rw [abs_le] at hnear
        have hlo : (-2147483648 : ℚ) ≤ (roundAway q : ℚ) := by
          unfold F32_MAX_SAFE_INT at h2
          linarith [hnear.1]
        have hhi : ((roundAway q : ℚ)) ≤ 2147483647 := by
          unfold F32_MAX_SAFE_INT at h1
          linarith [hnear.2]
        constructor
        · exact_mod_cast hlo
        · exact_mod_cast hhi


@[simp] lemma Canvas.set_width (c : Canvas) (x y : ℕ) (v : Rgb) :
    (c.set x y v).width = c.width := rfl

@[simp] lemma Canvas.set_height (c : Canvas) (x y : ℕ) (v : Rgb) :
    (c.set x y v).height = c.height := rfl

lemma Canvas.set_pix (c : Canvas) (x y : ℕ) (v : Rgb) (p q : ℕ) :
    (c.set x y v).pix p q = if p = x ∧ q = y then v else c.pix p q := rfl


lemma drawTextPixel_width (canvas : Canvas) (bmx bmy : F32) (gx gy : ℕ)
    (cov : F32) (color : Rgb) :
    (drawTextPixel canvas bmx bmy gx gy cov color).width = canvas.width := by
  unfold drawTextPixel
  dsimp only
  split <;> rfl

lemma drawTextPixel_height (canvas : Canvas) (bmx bmy : F32) (gx gy : ℕ)
    (cov : F32) (color : Rgb) :
    (drawTextPixel canvas bmx bmy gx gy cov color).height = canvas.height := by
  unfold drawTextPixel
  dsimp only
  split <;> rfl

/-- Pointwise description of one outline-callback write. -/
lemma drawTextPixel_pix (canvas : Canvas) (p : PxWrite) (color : Rgb) (x y : ℕ) :
    (drawTextPixel canvas p.bmx p.bmy p.gx p.gy p.cov color).pix x y =
      if pxHit p canvas.width canvas.height x y
      then pxVal p color else canvas.pix x y := by
  unfold drawTextPixel pxHit pxVal
  dsimp only
  by_cases hg : 0 ≤ glyphTargetX p.bmx p.gx ∧ 0 ≤ glyphTargetY p.bmy p.gy ∧
      glyphTargetX p.bmx p.gx < u32_to_i32 canvas.width ∧
      glyphTargetY p.bmy p.gy < u32_to_i32 canvas.height
  · rw [if_pos hg, Canvas.set_pix]
    by_cases he : x = i32_to_u32 (glyphTargetX p.bmx p.gx) ∧
        y = i32_to_u32 (glyphTargetY p.bmy p.gy)
    · rw [if_pos he,
        if_pos ⟨hg.1, hg.2.1, hg.2.2.1, hg.2.2.2, he.1.symm, he.2.symm⟩]
    · rw [if_neg he, if_neg]
      intro hcon
      exact he ⟨hcon.2.2.2.2.1.symm, hcon.2.2.2.2.2.symm⟩
  · rw [if_neg hg, if_neg]
    intro hcon
    exact hg ⟨hcon.1, hcon.2.1, hcon.2.2.1, hcon.2.2.2.1⟩

lemma copyPixel_width (c : Canvas) (img : Img) (xs ys x y : ℕ) :
    (copyPixel c img xs ys x y).width = c.width := by
  unfold copyPixel
  split <;> rfl

lemma copyPixel_height (c : Canvas) (img : Img) (xs ys x y : ℕ) :
    (copyPixel c img xs ys x y).height = c.height := by
  unfold copyPixel
  split <;> rfl

/-- Pointwise description of one copy-loop write. -/
lemma copyPixel_pix (c : Canvas) (img : Img) (xs ys x y p q : ℕ) :
    (copyPixel c img xs ys x y).pix p q =
      if p = (xs + x) % U32 ∧ q = (ys + y) % U32 ∧ p < c.width ∧ q < c.height
      then img.pix x y else c.pix p q := by
  unfold copyPixel
  by_cases hg : (xs + x) % U32 < c.width ∧ (ys + y) % U32 < c.height
  · rw [if_pos hg, Canvas.set_pix]
    by_cases he : p = (xs + x) % U32 ∧ q = (ys + y) % U32
    · rw [if_pos he, if_pos ⟨he.1, he.2, by rw [he.1]; exact hg.1, by rw [he.2]; exact hg.2⟩]
    · rw [if_neg he, if_neg fun hcon => he ⟨hcon.1, hcon.2.1⟩]
  · rw [if_neg hg, if_neg]
    intro hcon
    exact hg ⟨hcon.1 ▸ hcon.2.2.1, hcon.2.1 ▸ hcon.2.2.2⟩

/-- A fold whose step preserves the canvas dimensions preserves them. -/
lemma foldl_dims {α : Type} (f : Canvas → α → Canvas)
    (hf : ∀ c a, (f c a).width = c.width ∧ (f c a).height = c.height) :
    ∀ (l : List α) (c : Canvas),
      (l.foldl f c).width = c.width ∧ (l.foldl f c).height = c.height := by
  intro l
  induction l with
  | nil => intro c; exact ⟨rfl, rfl⟩
  | cons a t ih =>
      intro c
      rw [List.foldl_cons]
      obtain ⟨hw, hh⟩ := ih (f c a)
      obtain ⟨hw2, hh2⟩ := hf c a
      exact ⟨hw.trans hw2, hh.trans hh2⟩

/-- A fold whose step never touches a fixed out-of-bounds coordinate
leaves that coordinate unchanged. -/
lemma foldl_pix_oob {α : Type} (f : Canvas → α → Canvas)
    (hf : ∀ c a, (f c a).width = c.width ∧ (f c a).height = c.height)
    (p q : ℕ)
    (hp : ∀ c a, c.width ≤ p ∨ c.height ≤ q → (f c a).pix p q = c.pix p q) :
    ∀ (l : List α) (c : Canvas), c.width ≤ p ∨ c.height ≤ q →
      (l.foldl f c).pix p q = c.pix p q := by
  intro l
  induction l with
  | nil => intro c _; rfl
  | cons a t ih =>
      intro c hc
      rw [List.foldl_cons]
      have hd := hf c a
      have hc2 : (f c a).width ≤ p ∨ (f c a).height ≤ q := by
        rcases hc with h | h
        · exact Or.inl (by rw [hd.1]; exact h)
        · exact Or.inr (by rw [hd.2]; exact h)
      rw [ih (f c a) hc2, hp c a hc]

/-- A fold of writes whose values ignore the accumulator is either the
identity or independent of its start value. -/
lemma foldl_oblivious {α β : Type} (hit : α → Prop) [DecidablePred hit] (val : α → β) :
    ∀ ps : List α,
      (∀ a : β, ps.foldl (fun v p => if hit p then val p else v) a = a) ∨
      (∀ a b : β, ps.foldl (fun v p => if hit p then val p else v) a =
                  ps.foldl (fun v p => if hit p then val p else v) b) := by
  intro ps
  induction ps with
  | nil => exact Or.inl fun a => rfl
  | cons p t ih =>
      rcases ih with ih | ih
      · by_cases hp : hit p
        · refine Or.inr fun a b => ?_
          rw [List.foldl_cons, List.foldl_cons]
          simp only [if_pos hp]
        · refine Or.inl fun a => ?_
          rw [List.foldl_cons]
          simp only [if_neg hp]
          exact ih a
      · refine Or.inr fun a b => ?_
        rw [List.foldl_cons, List.foldl_cons]
        exact ih _ _

lemma copyImage_dims (c : Canvas) (img : Img) (xs ys : ℕ) :
    (copyImage c img xs ys).width = c.width ∧ (copyImage c img xs ys).height = c.height := by
  unfold copyImage
  exact foldl_dims _
    (fun cy y => foldl_dims _ (fun cx x => ⟨copyPixel_width .., copyPixel_height ..⟩) _ cy)
    _ c

lemma copyImage_width (c : Canvas) (img : Img) (xs ys : ℕ) :
    (copyImage c img xs ys).width = c.width := (copyImage_dims c img xs ys).1

lemma copyImage_height (c : Canvas) (img : Img) (xs ys : ℕ) :
    (copyImage c img xs ys).height = c.height := (copyImage_dims c img xs ys).2

lemma copyPixel_pix_oob (c : Canvas) (img : Img) (xs ys x y p q : ℕ)
    (h : c.width ≤ p ∨ c.height ≤ q) :
    (copyPixel c img xs ys x y).pix p q = c.pix p q := by
  rw [copyPixel_pix, if_neg]
  intro hcon
  rcases h with h | h
  · omega
  · omega

/-- The copy loop never writes outside the canvas bounds. -/
lemma copyImage_pix_oob (c : Canvas) (img : Img) (xs ys p q : ℕ)
    (h : c.width ≤ p ∨ c.height ≤ q) :
    (copyImage c img xs ys).pix p q = c.pix p q := by
  unfold copyImage
  refine foldl_pix_oob _ ?_ p q ?_ _ c h
  · exact fun cy y => foldl_dims _ (fun cx x => ⟨copyPixel_width .., copyPixel_height ..⟩) _ cy
  · intro cy y hcy
    refine foldl_pix_oob _ (fun cx x => ⟨copyPixel_width .., copyPixel_height ..⟩) p q ?_ _ cy hcy
    intro cx x hcx
    exact copyPixel_pix_oob cx img xs ys x y p q hcx

/-- Pointwise description of one row of the copy loop, assuming the u32
additions do not wrap. -/
lemma copyRow_pix (img : Img) (xs ys y : ℕ) :
    ∀ n : ℕ, xs + n ≤ U32 → ∀ (c : Canvas) (p q : ℕ),
    ((List.range n).foldl (fun cx x => copyPixel cx img xs ys x y) c).pix p q =
      if xs ≤ p ∧ p < xs + n ∧ q = (ys + y) % U32 ∧ p < c.width ∧ q < c.height
      then img.pix (p - xs) y else c.pix p q := by
  intro n
  induction n with
  | zero =>
      intro _ c p q
      rw [List.range_zero, List.foldl_nil, if_neg]
      intro hcon
      omega
  | succ n ih =>
      intro hxw c p q
      rw [List.range_succ, List.foldl_append, List.foldl_cons, List.foldl_nil]
      rw [copyPixel_pix]
      have hdims := foldl_dims (fun cx x => copyPixel cx img xs ys x y)
        (fun cx x => ⟨copyPixel_width .., copyPixel_height ..⟩) (List.range n) c
      rw [hdims.1, hdims.2, ih (by omega) c p q]
      have hmod : (xs + n) % U32 = xs + n := Nat.mod_eq_of_lt (by omega)
      rw [hmod]
      set m := (ys + y) % U32 with hm
      split_ifs with h1 h2 h3 h4 h5 <;> first
        | rfl
        | (exfalso; omega)
        | (congr 1; omega)

/-- Pointwise description of the whole copy loop, assuming the u32
additions do not wrap: the written region is the image rectangle at
`(x_start, y_start)`, clipped at the canvas bounds. -/
lemma copyImage_pix (c : Canvas) (img : Img) (xs ys : ℕ)
    (hxw : xs + img.width ≤ U32) (hyh : ys + img.height ≤ U32) (p q : ℕ) :
    (copyImage c img xs ys).pix p q =
      if xs ≤ p ∧ p < xs + img.width ∧ ys ≤ q ∧ q < ys + img.height ∧
         p < c.width ∧ q < c.height
      then img.pix (p - xs) (q - ys) else c.pix p q := by
  unfold copyImage
  have main : ∀ m : ℕ, ys + m ≤ U32 → ∀ (c : Canvas) (p q : ℕ),
      ((List.range m).foldl (fun cy y => (List.range img.width).foldl
        (fun cx x => copyPixel cx img xs ys x y) cy) c).pix p q =
        if xs ≤ p ∧ p < xs + img.width ∧ ys ≤ q ∧ q < ys + m ∧
           p < c.width ∧ q < c.height
        then img.pix (p - xs) (q - ys) else c.pix p q := by
    intro m
    induction m with
    | zero =>
        intro _ c p q
        rw [List.range_zero, List.foldl_nil, if_neg]
        intro hcon
        omega
    | succ m ih =>
        intro hym c p q
        rw [List.range_succ, List.foldl_append, List.foldl_cons, List.foldl_nil]
        rw [copyRow_pix img xs ys m img.width hxw _ p q]
        have hdims := foldl_dims (fun cy y => (List.range img.width).foldl
            (fun cx x => copyPixel cx img xs ys x y) cy)
          (fun cy y => foldl_dims _ (fun cx x => ⟨copyPixel_width .., copyPixel_height ..⟩) _ cy)
          (List.range m) c
        rw [hdims.1, hdims.2, ih (by omega) c p q]
        have hmod : (ys + m) % U32 = ys + m := Nat.mod_eq_of_lt (by omega)
        rw [hmod]
        split_ifs with h1 h2 h3 h4 h5 <;> first
          | rfl
          | (exfalso; omega)
          | (congr 1; omega)
  exact main img.height hyh c p q

lemma drawGlyphPixels_dims (c : Canvas) (ps : List PxWrite) (color : Rgb) :
    (drawGlyphPixels c ps color).width = c.width ∧
    (drawGlyphPixels c ps color).height = c.height := by
  unfold drawGlyphPixels
  exact foldl_dims _ (fun c p => ⟨drawTextPixel_width .., drawTextPixel_height ..⟩) ps c

/-- Pointwise description of a full sequence of outline-coverage
writes. -/
lemma drawGlyphPixels_pix (ps : List PxWrite) :
    ∀ (c : Canvas) (color : Rgb) (x y : ℕ),
    (drawGlyphPixels c ps color).pix x y =
      ps.foldl (fun v p => if pxHit p c.width c.height x y then pxVal p color else v)
        (c.pix x y) := by
  induction ps with
  | nil => intro c color x y; rfl
  | cons p t ih =>
      intro c color x y
      unfold drawGlyphPixels at ih ⊢
      rw [List.foldl_cons, List.foldl_cons, ih _ color x y]
      rw [drawTextPixel_width, drawTextPixel_height, drawTextPixel_pix c p color x y]

lemma placeImage_dims (td : Canvas → String → ℤ → ℤ → Canvas)
    (htdw : ∀ c s x y, (td c s x y).width = c.width)
    (htdh : ∀ c s x y, (td c s x y).height = c.height)
    (labels row_labels : List String)
    (cols iw ih rh lp tp lh : ℕ) (c : Canvas) (pair : ℕ × Img) :
    (placeImage td labels row_labels cols iw ih rh lp tp lh c pair).width = c.width ∧
    (placeImage td labels row_labels cols iw ih rh lp tp lh c pair).height = c.height := by
  unfold placeImage
  dsimp only
  split_ifs <;>
    constructor <;>
    simp [copyImage_width, copyImage_height, htdw, htdh]

lemma drawColumnLabels_dims (td : Canvas → String → ℤ → ℤ → Canvas)
    (htdw : ∀ c s x y, (td c s x y).width = c.width)
    (htdh : ∀ c s x y, (td c s x y).height = c.height)
    (column_labels : List String) (iw lp lh : ℕ) (c : Canvas) :
    (drawColumnLabels td column_labels iw lp lh c).width = c.width ∧
    (drawColumnLabels td column_labels iw lp lh c).height = c.height := by
  unfold drawColumnLabels
  exact foldl_dims _ (fun c pair => ⟨htdw .., htdh ..⟩) _ c

/-- Canvas dimensions produced by the render, before removing the u32
wrap-around. -/
lemma renderPlot_dims (td : Canvas → String → ℤ → ℤ → Canvas)
    (htdw : ∀ c s x y, (td c s x y).width = c.width)
    (htdh : ∀ c s x y, (td c s x y).height = c.height)
    (images : List Img) (labels row_labels column_labels : List String)
    (rows cols : ℕ) (first : Img) :
    (renderPlot td images labels row_labels column_labels rows cols first).width =
      (first.width * cols + leftPad row_labels) % U32 ∧
    (renderPlot td images labels row_labels column_labels rows cols first).height =
      (((first.height + if hasLabels labels row_labels column_labels then 50 else 0) % U32)
        * rows + (if hasLabels labels row_labels column_labels then 50 else 0)) % U32 := by
  unfold renderPlot
  dsimp only
  obtain ⟨h1w, h1h⟩ := foldl_dims
    (placeImage td labels row_labels cols first.width first.height
      ((first.height + if hasLabels labels row_labels column_labels then 50 else 0) % U32)
      (leftPad row_labels) 50 30)
    (placeImage_dims td htdw htdh labels row_labels cols _ _ _ _ _ _)
    images.enum _
  rw [h1w, h1h]
  obtain ⟨h2w, h2h⟩ := drawColumnLabels_dims td htdw htdh column_labels
    first.width (leftPad row_labels) 30 _
  rw [h2w, h2h]
  exact ⟨rfl, rfl⟩

/-- When validation passes, `save_image_plot` reaches the render. -/
lemma save_image_plot_eq_ok (td : Canvas → String → ℤ → ℤ → Canvas) (args : Args)
    (first : Img) (rest : List Img)
    (himg : args.images = first :: rest)
    (hrows : 1 ≤ args.rows)
    (hn : args.images.length < U32)
    (hl : args.labels = [] ∨ args.labels.length = args.images.length)
    (hr : args.row_labels = [] ∨ args.row_labels.length = args.rows)
    (hc : args.column_labels = [] ∨
          args.column_labels.length = divCeil args.images.length args.rows) :
    save_image_plot td args =
      .ok (renderPlot td args.images args.labels args.row_labels args.column_labels
            args.rows (divCeil args.images.length args.rows) first) := by
  unfold save_image_plot
  dsimp only
  have h1 : ¬(args.labels ≠ [] ∧ args.labels.length ≠ args.images.length) := by
    rcases hl with h | h
    · simp [h]
    · simp [h]
  have h2 : ¬(args.row_labels ≠ [] ∧ args.row_labels.length ≠ args.rows) := by
    rcases hr with h | h
    · simp [h]
    · simp [h]
  have h3 : ¬(U32 ≤ args.images.length) := by omega
  have h4 : ¬(args.rows = 0) := by omega
  have h5 : ¬(args.column_labels ≠ [] ∧
      args.column_labels.length ≠ divCeil args.images.length args.rows) := by
    rcases hc with h | h
    · simp [h]
    · simp [h]
  rw [if_neg h1, if_neg h2, if_neg h3, if_neg h4, if_neg h5, himg]

/-- `div_ceil` computes the ceiling of the division. -/
lemma divCeil_eq (n r : ℕ) (hr : 1 ≤ r) : divCeil n r = (n + r - 1) / r := by
  unfold divCeil
  obtain ⟨Q, hQ⟩ : ∃ Q, n / r = Q := ⟨_, rfl⟩
  obtain ⟨S, hS⟩ : ∃ S, n % r = S := ⟨_, rfl⟩
  have hd : r * Q + S = n := by
    rw [← hQ, ← hS]
    exact Nat.div_add_mod n r
  have hs : S < r := hS ▸ Nat.mod_lt _ hr
  rw [hQ, hS]
  by_cases h : S = 0
  · rw [if_pos h]
    have he : n + r - 1 = (r - 1) + r * Q := by omega
    rw [he, Nat.add_mul_div_left _ _ (by omega : 0 < r),
      Nat.div_eq_of_lt (by omega : r - 1 < r)]
    omega
  · rw [if_neg h]
    have hexp : r * (Q + 1) = r * Q + r := Nat.mul_succ r Q
    have he : n + r - 1 = (S - 1) + r * (Q + 1) := by
      rw [hexp]
      omega
    rw [he, Nat.add_mul_div_left _ _ (by omega : 0 < r),
      Nat.div_eq_of_lt (by omega : S - 1 < r)]
    omega

lemma divCeil_pos (n r : ℕ) (hn : 1 ≤ n) (_hr : 1 ≤ r) : 1 ≤ divCeil n r := by
  unfold divCeil
  obtain ⟨Q, hQ⟩ : ∃ Q, n / r = Q := ⟨_, rfl⟩
  obtain ⟨S, hS⟩ : ∃ S, n % r = S := ⟨_, rfl⟩
  have hd : r * Q + S = n := by
    rw [← hQ, ← hS]
    exact Nat.div_add_mod n r
  rw [hQ, hS]
  by_cases h : S = 0
  · rw [if_pos h]
    rcases Nat.eq_zero_or_pos Q with h0 | h0
    · subst h0
      omega
    · omega
  · rw [if_neg h]
    omega

/-- The grid has enough cells: `n ≤ divCeil n r * r`. -/
lemma le_divCeil_mul (n r : ℕ) (hr : 1 ≤ r) : n ≤ divCeil n r * r := by
  unfold divCeil
  obtain ⟨Q, hQ⟩ : ∃ Q, n / r = Q := ⟨_, rfl⟩
  obtain ⟨S, hS⟩ : ∃ S, n % r = S := ⟨_, rfl⟩
  have hd : r * Q + S = n := by
    rw [← hQ, ← hS]
    exact Nat.div_add_mod n r
  have hs : S < r := hS ▸ Nat.mod_lt _ hr
  rw [hQ, hS]
  by_cases h : S = 0
  · rw [if_pos h, Nat.add_zero]
    have : Q * r = r * Q := Nat.mul_comm _ _
    omega
  · rw [if_neg h, Nat.add_mul, Nat.one_mul]
    have : Q * r = r * Q := Nat.mul_comm _ _
    omega

/-- The guarded target coordinate is within the u32 dimension. -/
lemma target_lt_of_guard {X : ℤ} {w : ℕ} (h0 : 0 ≤ X) (h : X < u32_to_i32 w) :
    i32_to_u32 X < w := by
  unfold u32_to_i32 at h
  unfold i32_to_u32
  rw [max_eq_left h0]
  split_ifs at h with hw
  · omega
  · omega

/-- C8: `f32_to_i32` is total: NaN maps to 0; every input at or above
the maximum safely-representable value (2^24) clamps to `i32::MAX` and
every input at or below the minimum clamps to `i32::MIN`; every other
finite input is rounded to the nearest integer (half away from zero,
within 1/2 of the input); every result lies in the i32 range. -/
theorem claim8_f32_to_i32_total :
    f32_to_i32 F32.nan = 0 ∧
    f32_to_i32 F32.inf = 2147483647 ∧
    f32_to_i32 F32.ninf = -2147483648 ∧
    (∀ q : ℚ, F32_MAX_SAFE_INT ≤ q → f32_to_i32 (F32.fin q) = 2147483647) ∧
    (∀ q : ℚ, q ≤ -F32_MAX_SAFE_INT → f32_to_i32 (F32.fin q) = -2147483648) ∧
    (∀ q : ℚ, -F32_MAX_SAFE_INT < q → q < F32_MAX_SAFE_INT →
      f32_to_i32 (F32.fin q) = roundAway q ∧ |(roundAway q : ℚ) - q| ≤ 1/2) ∧
    (∀ v : F32, -2147483648 ≤ f32_to_i32 v ∧ f32_to_i32 v ≤ 2147483647) := by
  refine ⟨rfl, rfl, rfl, ?_, ?_, ?_, f32_to_i32_range⟩
  · intro q hq
    simp only [f32_to_i32]
    rw [if_pos hq]
  · intro q hq
    simp only [f32_to_i32]
    rw [if_neg (by unfold F32_MAX_SAFE_INT at hq ⊢; linarith), if_pos hq]
  · intro q h1 h2
    refine ⟨?_, roundAway_near q⟩
    simp only [f32_to_i32]
    rw [if_neg (by linarith), if_neg (by linarith)]

/-- Witness for C8 at concrete inputs on every hypothesis-guarded
branch. -/
theorem claim8_f32_to_i32_total_witness :
    (F32_MAX_SAFE_INT ≤ (16777216 : ℚ) ∧
      f32_to_i32 (F32.fin 16777216) = 2147483647) ∧
    ((-16777216 : ℚ) ≤ -F32_MAX_SAFE_INT ∧
      f32_to_i32 (F32.fin (-16777216)) = -2147483648) ∧
    (-F32_MAX_SAFE_INT < (3/2 : ℚ) ∧ (3/2 : ℚ) < F32_MAX_SAFE_INT ∧
      f32_to_i32 (F32.fin (3/2)) = roundAway (3/2) ∧
      |(roundAway (3/2) : ℚ) - 3/2| ≤ 1/2) :=
  ⟨⟨by norm_num [F32_MAX_SAFE_INT],
    claim8_f32_to_i32_total.2.2.2.1 16777216 (by norm_num [F32_MAX_SAFE_INT])⟩,
   ⟨by norm_num [F32_MAX_SAFE_INT],
    claim8_f32_to_i32_total.2.2.2.2.1 (-16777216) (by norm_num [F32_MAX_SAFE_INT])⟩,
   by norm_num [F32_MAX_SAFE_INT],
   by norm_num [F32_MAX_SAFE_INT],
   (claim8_f32_to_i32_total.2.2.2.2.2.1 (3/2)
     (by norm_num [F32_MAX_SAFE_INT]) (by norm_num [F32_MAX_SAFE_INT])).1,
   (claim8_f32_to_i32_total.2.2.2.2.2.1 (3/2)
     (by norm_num [F32_MAX_SAFE_INT]) (by norm_num [F32_MAX_SAFE_INT])).2⟩

/-- C4: for every `rows ≥ 1` and image count `n ≥ 1`, the computed
column count equals `ceil(n/rows)`, is positive, and the map
`i ↦ (i / cols, i % cols)` places every index in a row below `rows`
with no two distinct indices sharing a cell. -/
theorem claim4_cols_cell_map (n rows : ℕ) (hrows : 1 ≤ rows) (hn : 1 ≤ n) :
    divCeil n rows = (n + rows - 1) / rows ∧
    1 ≤ divCeil n rows ∧
    (∀ i, i < n → i / divCeil n rows < rows) ∧
    (∀ i j, i < n → j < n → i / divCeil n rows = j / divCeil n rows →
      i % divCeil n rows = j % divCeil n rows → i = j) := by
  refine ⟨divCeil_eq n rows hrows, divCeil_pos n rows hn hrows, ?_, ?_⟩
  · intro i hi
    have hc : 0 < divCeil n rows := divCeil_pos n rows hn hrows
    have hcells : n ≤ divCeil n rows * rows := le_divCeil_mul n rows hrows
    rw [Nat.div_lt_iff_lt_mul hc]
    calc i < n := hi
      _ ≤ divCeil n rows * rows := hcells
      _ = rows * divCeil n rows := Nat.mul_comm _ _
  · intro i j _ _ hdiv hmod
    have hi := (Nat.div_add_mod i (divCeil n rows)).symm
    have hj := (Nat.div_add_mod j (divCeil n rows)).symm
    rw [hdiv, hmod] at hi
    exact hi.trans hj.symm

/-- Witness for C4 at the spec's Scenario B numbers. -/
theorem claim4_cols_cell_map_witness :
    1 ≤ 3 ∧ 1 ≤ 9 ∧ divCeil 9 3 = (9 + 3 - 1) / 3 :=
  ⟨by norm_num, by norm_num, (claim4_cols_cell_map 9 3 (by norm_num) (by norm_num)).1⟩

lemma roundAway_zero : roundAway 0 = 0 := by
  unfold roundAway
  rw [if_pos le_rfl]
  norm_num

lemma f32_to_i32_fin_zero : f32_to_i32 (F32.fin 0) = 0 := by
  simp only [f32_to_i32]
  rw [if_neg (by norm_num [F32_MAX_SAFE_INT]), if_neg (by norm_num [F32_MAX_SAFE_INT]),
    roundAway_zero]

lemma glyphTargetX_fin_zero : glyphTargetX (F32.fin 0) 0 = 0 := by
  unfold glyphTargetX
  rw [f32_to_i32_fin_zero]
  decide

lemma glyphTargetY_fin_zero : glyphTargetY (F32.fin 0) 0 = 0 := by
  unfold glyphTargetY
  rw [f32_to_i32_fin_zero]
  decide

lemma coverage_zero_u8 : f32_to_u8 (f32Mul255 (F32.fin 0)) = 0 := by
  simp only [f32Mul255, f32_to_u8]
  rw [if_neg (by norm_num), if_pos (by norm_num)]

lemma coverage_one_u8 : f32_to_u8 (f32Mul255 (F32.fin 1)) = 255 := by
  simp only [f32Mul255, f32_to_u8]
  rw [if_pos (by norm_num)]

/-- C2 counterexample: on an all-black canvas, an outline-coverage
pixel with coverage 0 is repainted white by `draw_text`, so the
destination pixel is not left unchanged and the written value is not
`dst*(1-a) + color*a` (which would be black). -/
theorem claim2_blend_counterexample :
    (drawTextPixel blackCanvas (F32.fin 0) (F32.fin 0) 0 0 (F32.fin 0)
        { r := 0, g := 0, b := 0 }).pix 0 0 = { r := 255, g := 255, b := 255 } ∧
    blackCanvas.pix 0 0 = { r := 0, g := 0, b := 0 } := by
  constructor
  · unfold drawTextPixel
    dsimp only
    rw [if_pos]
    · rw [coverage_zero_u8, Canvas.set_pix, if_pos]
      · rfl
      · rw [glyphTargetX_fin_zero, glyphTargetY_fin_zero]
        constructor <;> rfl
    · rw [glyphTargetX_fin_zero, glyphTargetY_fin_zero]
      refine ⟨le_rfl, le_rfl, ?_, ?_⟩ <;> decide
  · rfl

/-- C2 amended: for every outline-coverage pixel that lands inside the
canvas, `draw_text` writes `(255 - c) + (c*color)/255` per channel in
u8 arithmetic, where `c` is the coverage scaled to `[0,255]` — an alpha
blend of the color against a *white* background that ignores the
destination pixel entirely; coverage 0 paints the pixel white, and
coverage 1.0 paints it the glyph color for the black color the program
draws with. -/
theorem claim2_blend_amended (canvas : Canvas) (bmx bmy : F32) (gx gy : ℕ)
    (q : ℚ) (color : Rgb)
    (h1 : 0 ≤ glyphTargetX bmx gx) (h2 : 0 ≤ glyphTargetY bmy gy)
    (h3 : glyphTargetX bmx gx < u32_to_i32 canvas.width)
    (h4 : glyphTargetY bmy gy < u32_to_i32 canvas.height) :
    (drawTextPixel canvas bmx bmy gx gy (F32.fin q) color).pix
        (i32_to_u32 (glyphTargetX bmx gx)) (i32_to_u32 (glyphTargetY bmy gy)) =
      { r := blendChannel (f32_to_u8 (F32.fin (q * 255))) color.r,
        g := blendChannel (f32_to_u8 (F32.fin (q * 255))) color.g,
        b := blendChannel (f32_to_u8 (F32.fin (q * 255))) color.b } ∧
    (q ≤ 0 →
      (drawTextPixel canvas bmx bmy gx gy (F32.fin q) color).pix
          (i32_to_u32 (glyphTargetX bmx gx)) (i32_to_u32 (glyphTargetY bmy gy)) =
        { r := 255, g := 255, b := 255 }) ∧
    (1 ≤ q → color = { r := 0, g := 0, b := 0 } →
      (drawTextPixel canvas bmx bmy gx gy (F32.fin q) color).pix
          (i32_to_u32 (glyphTargetX bmx gx)) (i32_to_u32 (glyphTargetY bmy gy)) =
        { r := 0, g := 0, b := 0 }) := by
  have hpix := drawTextPixel_pix canvas ⟨bmx, bmy, gx, gy, F32.fin q⟩ color
    (i32_to_u32 (glyphTargetX bmx gx)) (i32_to_u32 (glyphTargetY bmy gy))
  dsimp only at hpix
  rw [if_pos ⟨h1, h2, h3, h4, rfl, rfl⟩] at hpix
  have hmain : (drawTextPixel canvas bmx bmy gx gy (F32.fin q) color).pix
      (i32_to_u32 (glyphTargetX bmx gx)) (i32_to_u32 (glyphTargetY bmy gy)) =
      { r := blendChannel (f32_to_u8 (F32.fin (q * 255))) color.r,
        g := blendChannel (f32_to_u8 (F32.fin (q * 255))) color.g,
        b := blendChannel (f32_to_u8 (F32.fin (q * 255))) color.b } := hpix
  refine ⟨hmain, ?_, ?_⟩
  · intro hq
    have hc : f32_to_u8 (F32.fin (q * 255)) = 0 := by
      simp only [f32_to_u8]
      rw [if_neg (by nlinarith), if_pos (by nlinarith)]
    rw [hmain, hc]
    have hb : ∀ v : ℕ, blendChannel 0 v = 255 := by
      intro v
      simp [blendChannel]
    rw [hb, hb, hb]
  · intro hq hcolor
    have hc : f32_to_u8 (F32.fin (q * 255)) = 255 := by
      simp only [f32_to_u8]
      rw [if_pos (by nlinarith)]
    rw [hmain, hc, hcolor]
    have hb : blendChannel 255 0 = 0 := by decide
    rw [hb]

/-- Witness for C2's amended claim: a concrete in-bounds coverage-0
write on the all-black canvas. -/
theorem claim2_blend_amended_witness :
    (0 ≤ glyphTargetX (F32.fin 0) 0 ∧ 0 ≤ glyphTargetY (F32.fin 0) 0 ∧
     glyphTargetX (F32.fin 0) 0 < u32_to_i32 blackCanvas.width ∧
     glyphTargetY (F32.fin 0) 0 < u32_to_i32 blackCanvas.height) ∧
    ((0 : ℚ) ≤ 0 →
      (drawTextPixel blackCanvas (F32.fin 0) (F32.fin 0) 0 0 (F32.fin 0)
          { r := 9, g := 9, b := 9 }).pix
          (i32_to_u32 (glyphTargetX (F32.fin 0) 0)) (i32_to_u32 (glyphTargetY (F32.fin 0) 0)) =
        { r := 255, g := 255, b := 255 }) := by
  have hgx : glyphTargetX (F32.fin 0) 0 = 0 := glyphTargetX_fin_zero
  have hgy : glyphTargetY (F32.fin 0) 0 = 0 := glyphTargetY_fin_zero
  have h1 : 0 ≤ glyphTargetX (F32.fin 0) 0 := by rw [hgx]
  have h2 : 0 ≤ glyphTargetY (F32.fin 0) 0 := by rw [hgy]
  have h3 : glyphTargetX (F32.fin 0) 0 < u32_to_i32 blackCanvas.width := by
    rw [hgx]; decide
  have h4 : glyphTargetY (F32.fin 0) 0 < u32_to_i32 blackCanvas.height := by
    rw [hgy]; decide
  exact ⟨⟨h1, h2, h3, h4⟩, fun _ =>
    (claim2_blend_amended blackCanvas (F32.fin 0) (F32.fin 0) 0 0 0
      { r := 9, g := 9, b := 9 } h1 h2 h3 h4).2.1 le_rfl⟩

/-- C9: every canvas write — glyph blending in `draw_text` and pixel
copying in `save_image_plot` — is clipped to the canvas: out-of-bounds
coordinates are left untouched, and performing the actual store through
the checked (panicking) buffer access always succeeds. -/
theorem claim9_writes_clipped :
    (∀ (canvas : Canvas) (bmx bmy : F32) (gx gy : ℕ) (cov : F32) (color : Rgb) (p q : ℕ),
      canvas.width ≤ p ∨ canvas.height ≤ q →
      (drawTextPixel canvas bmx bmy gx gy cov color).pix p q = canvas.pix p q) ∧
    (∀ (canvas : Canvas) (bmx bmy : F32) (gx gy : ℕ) (cov : F32) (color : Rgb),
      drawTextPixelChecked canvas bmx bmy gx gy cov color =
        some (drawTextPixel canvas bmx bmy gx gy cov color)) ∧
    (∀ (canvas : Canvas) (img : Img) (xs ys x y p q : ℕ),
      canvas.width ≤ p ∨ canvas.height ≤ q →
      (copyPixel canvas img xs ys x y).pix p q = canvas.pix p q) ∧
    (∀ (canvas : Canvas) (img : Img) (xs ys x y : ℕ),
      copyPixelChecked canvas img xs ys x y = some (copyPixel canvas img xs ys x y)) := by
  refine ⟨?_, ?_, ?_, ?_⟩
  · intro canvas bmx bmy gx gy cov color p q hout
    rw [drawTextPixel_pix canvas ⟨bmx, bmy, gx, gy, cov⟩ color p q, if_neg]
    intro hcon
    obtain ⟨h1, h2, h3, h4, h5, h6⟩ := hcon
    rcases hout with h | h
    · have hlt := target_lt_of_guard h1 h3
      rw [h5] at hlt
      omega
    · have hlt := target_lt_of_guard h2 h4
      rw [h6] at hlt
      omega
  · intro canvas bmx bmy gx gy cov color
    unfold drawTextPixelChecked drawTextPixel Canvas.setChecked
    dsimp only
    by_cases hg : 0 ≤ glyphTargetX bmx gx ∧ 0 ≤ glyphTargetY bmy gy ∧
        glyphTargetX bmx gx < u32_to_i32 canvas.width ∧
        glyphTargetY bmy gy < u32_to_i32 canvas.height
    · rw [if_pos hg, if_pos hg, if_pos]
      exact ⟨target_lt_of_guard hg.1 hg.2.2.1, target_lt_of_guard hg.2.1 hg.2.2.2⟩
    · rw [if_neg hg, if_neg hg]
  · intro canvas img xs ys x y p q hout
    exact copyPixel_pix_oob canvas img xs ys x y p q hout
  · intro canvas img xs ys x y
    unfold copyPixelChecked copyPixel Canvas.setChecked
    by_cases hg : (xs + x) % U32 < canvas.width ∧ (ys + y) % U32 < canvas.height
    · rw [if_pos hg, if_pos hg, if_pos hg]
    · rw [if_neg hg, if_neg hg]

/-- Witness for C9 at concrete inputs: an out-of-bounds glyph write and
an out-of-bounds copy write are both dropped, and both checked stores
succeed. -/
theorem claim9_writes_clipped_witness :
    (blackCanvas.width ≤ 10 ∨ blackCanvas.height ≤ 0) ∧
    (drawTextPixel blackCanvas (F32.fin 0) (F32.fin 0) 0 0 (F32.fin 1)
        { r := 0, g := 0, b := 0 }).pix 10 0 = blackCanvas.pix 10 0 ∧
    (copyPixel blackCanvas imgA 0 0 3 4).pix 10 0 = blackCanvas.pix 10 0 ∧
    copyPixelChecked blackCanvas imgA 0 0 3 4 =
      some (copyPixel blackCanvas imgA 0 0 3 4) :=
  ⟨Or.inl (by decide),
   claim9_writes_clipped.1 blackCanvas (F32.fin 0) (F32.fin 0) 0 0 (F32.fin 1)
     { r := 0, g := 0, b := 0 } 10 0 (Or.inl (by decide)),
   claim9_writes_clipped.2.2.1 blackCanvas imgA 0 0 3 4 10 0 (Or.inl (by decide)),
   claim9_writes_clipped.2.2.2 blackCanvas imgA 0 0 3 4⟩

/-- C10: the value `draw_text` writes at a covered in-bounds pixel
depends only on the glyph coverage and the requested color — two
canvases of the same dimensions receive the same value there — and
consequently replaying the same sequence of coverage writes a second
time leaves the canvas exactly as after the first pass (idempotence). -/
theorem claim10_draw_idempotent :
    (∀ (c c' : Canvas) (p : PxWrite) (color : Rgb) (x y : ℕ),
      c.width = c'.width → c.height = c'.height →
      pxHit p c.width c.height x y →
      (drawTextPixel c p.bmx p.bmy p.gx p.gy p.cov color).pix x y =
        (drawTextPixel c' p.bmx p.bmy p.gx p.gy p.cov color).pix x y) ∧
    (∀ (c : Canvas) (ps : List PxWrite) (color : Rgb),
      drawGlyphPixels (drawGlyphPixels c ps color) ps color =
        drawGlyphPixels c ps color) := by
  constructor
  · intro c c' p color x y hw hh hhit
    rw [drawTextPixel_pix c p color x y, drawTextPixel_pix c' p color x y,
      if_pos hhit, if_pos (by rw [← hw, ← hh]; exact hhit)]
  · intro c ps color
    obtain ⟨hw, hh⟩ := drawGlyphPixels_dims c ps color
    apply Canvas.ext
    · exact (drawGlyphPixels_dims _ ps color).1
    · exact (drawGlyphPixels_dims _ ps color).2
    · funext x y
      rw [drawGlyphPixels_pix ps _ color x y, hw, hh,
        drawGlyphPixels_pix ps c color x y]
      rcases foldl_oblivious (fun p => pxHit p c.width c.height x y)
          (fun p => pxVal p color) ps with hob | hob
      · exact hob _
      · exact hob _ _

/-- Witness for C10: a concrete full-coverage write hits pixel (0,0) of
two 10 by 10 canvases with different contents and stores the same
value, and a one-write pass is idempotent. -/
theorem claim10_draw_idempotent_witness :
    (blackCanvas.width = whiteCanvas.width ∧ blackCanvas.height = whiteCanvas.height ∧
      pxHit ⟨F32.fin 0, F32.fin 0, 0, 0, F32.fin 1⟩ blackCanvas.width blackCanvas.height 0 0) ∧
    (drawTextPixel blackCanvas (F32.fin 0) (F32.fin 0) 0 0 (F32.fin 1)
        { r := 0, g := 0, b := 0 }).pix 0 0 =
      (drawTextPixel whiteCanvas (F32.fin 0) (F32.fin 0) 0 0 (F32.fin 1)
        { r := 0, g := 0, b := 0 }).pix 0 0 ∧
    drawGlyphPixels
        (drawGlyphPixels blackCanvas [⟨F32.fin 0, F32.fin 0, 0, 0, F32.fin 1⟩]
          { r := 0, g := 0, b := 0 })
        [⟨F32.fin 0, F32.fin 0, 0, 0, F32.fin 1⟩] { r := 0, g := 0, b := 0 } =
      drawGlyphPixels blackCanvas [⟨F32.fin 0, F32.fin 0, 0, 0, F32.fin 1⟩]
        { r := 0, g := 0, b := 0 } := by
  have hhit : pxHit ⟨F32.fin 0, F32.fin 0, 0, 0, F32.fin 1⟩
      blackCanvas.width blackCanvas.height 0 0 := by
    unfold pxHit
    dsimp only
    rw [glyphTargetX_fin_zero, glyphTargetY_fin_zero]
    refine ⟨le_rfl, le_rfl, by decide, by decide, rfl, rfl⟩
  exact ⟨⟨rfl, rfl, hhit⟩,
    claim10_draw_idempotent.1 blackCanvas whiteCanvas
      ⟨F32.fin 0, F32.fin 0, 0, 0, F32.fin 1⟩ { r := 0, g := 0, b := 0 } 0 0 rfl rfl hhit,
    claim10_draw_idempotent.2 blackCanvas
      [⟨F32.fin 0, F32.fin 0, 0, 0, F32.fin 1⟩] { r := 0, g := 0, b := 0 }⟩

/-- C3: for every request (with `rows ≥ 1` and an image count
representable in u32), a non-empty label list whose length mismatches
its target count makes `save_image_plot` return a reported
configuration error: the outcome is `.err`, produced before any canvas
is allocated, so no output file is created. -/
theorem claim3_label_validation (td : Canvas → String → ℤ → ℤ → Canvas) (args : Args)
    (hrows : 1 ≤ args.rows) (hn : args.images.length < U32)
    (hbad : (args.labels ≠ [] ∧ args.labels.length ≠ args.images.length) ∨
            (args.row_labels ≠ [] ∧ args.row_labels.length ≠ args.rows) ∨
            (args.column_labels ≠ [] ∧
              args.column_labels.length ≠ divCeil args.images.length args.rows)) :
    isConfigErrorOutcome (save_image_plot td args) = true := by
  unfold save_image_plot
  dsimp only
  by_cases h1 : args.labels ≠ [] ∧ args.labels.length ≠ args.images.length
  · rw [if_pos h1]
    rfl
  · rw [if_neg h1]
    by_cases h2 : args.row_labels ≠ [] ∧ args.row_labels.length ≠ args.rows
    · rw [if_pos h2]
      rfl
    · rw [if_neg h2, if_neg (by omega : ¬U32 ≤ args.images.length),
        if_neg (by omega : ¬args.rows = 0)]
      by_cases h3 : args.column_labels ≠ [] ∧
          args.column_labels.length ≠ divCeil args.images.length args.rows
      · rw [if_pos h3]
        rfl
      · exact absurd hbad (by tauto)

/-- Witness for C3: one image with two per-image labels is rejected
with a configuration error. -/
theorem claim3_label_validation_witness :
    (1 ≤ argsMismatch.rows ∧ argsMismatch.images.length < U32 ∧
      argsMismatch.labels ≠ [] ∧ argsMismatch.labels.length ≠ argsMismatch.images.length) ∧
    isConfigErrorOutcome (save_image_plot trivialDraw argsMismatch) = true :=
  ⟨⟨by decide, by decide, by decide, by decide⟩,
   claim3_label_validation trivialDraw argsMismatch (by decide) (by decide)
     (Or.inl ⟨by decide, by decide⟩)⟩

/-- C7: with zero images supplied (and no label lists), the core
`save_image_plot` does not report a ConfigurationError: it panics
indexing `images[0]` out of bounds.  The claim (and spec section 7)
says zero images must be a reported ConfigurationError, so the code is
missing the check — it only survives because the CLI collaborator
(`clap`, `required = true`) refuses an empty image list before the core
runs. -/
theorem claim7_zero_images_panic :
    save_image_plot trivialDraw argsEmpty = PlotOutcome.panic ∧
    isConfigErrorOutcome (save_image_plot trivialDraw argsEmpty) = false := by
  constructor
  · rfl
  · rfl

/-- `leftPad` is 40 exactly when some row label is a non-empty string. -/
lemma leftPad_spec (rls : List String) :
    leftPad rls = if ∃ l ∈ rls, l ≠ "" then 40 else 0 := by
  unfold leftPad
  congr 1
  simp only [List.any_eq_true, Bool.not_eq_true', Bool.eq_false_iff, ne_eq,
    String.isEmpty_iff]

/-- `hasLabels` holds exactly when some label class is present. -/
lemma hasLabels_spec (l r c : List String) :
    hasLabels l r c = true ↔ (l ≠ [] ∨ r ≠ [] ∨ c ≠ []) := by
  simp only [hasLabels, Bool.or_eq_true, Bool.not_eq_true', Bool.eq_false_iff, ne_eq,
    List.isEmpty_iff]
  tauto

/-- C5: for every request that passes validation (and whose geometry
does not overflow u32), the canvas is `image_width*cols + left_padding`
wide and `(image_height + top_band)*rows + top_band` tall when any
label class is present, else `image_height*rows` tall, where the
dimensions come from the first image and `left_padding` is 40 exactly
when some row label is non-empty. -/
theorem claim5_canvas_dims (td : Canvas → String → ℤ → ℤ → Canvas) (args : Args)
    (first : Img) (rest : List Img)
    (htdw : ∀ c s x y, (td c s x y).width = c.width)
    (htdh : ∀ c s x y, (td c s x y).height = c.height)
    (himg : args.images = first :: rest)
    (hrows : 1 ≤ args.rows)
    (hn : args.images.length < U32)
    (hl : args.labels = [] ∨ args.labels.length = args.images.length)
    (hr : args.row_labels = [] ∨ args.row_labels.length = args.rows)
    (hc : args.column_labels = [] ∨
          args.column_labels.length = divCeil args.images.length args.rows)
    (hoW : first.width * divCeil args.images.length args.rows + leftPad args.row_labels < U32)
    (hoH : (first.height + 50) * args.rows + 50 < U32) :
    outWidth (save_image_plot td args) =
      some (first.width * divCeil args.images.length args.rows + leftPad args.row_labels) ∧
    outHeight (save_image_plot td args) =
      some (if hasLabels args.labels args.row_labels args.column_labels
            then (first.height + 50) * args.rows + 50
            else first.height * args.rows) ∧
    leftPad args.row_labels = (if ∃ l ∈ args.row_labels, l ≠ "" then 40 else 0) := by
  rw [save_image_plot_eq_ok td args first rest himg hrows hn hl hr hc]
  obtain ⟨hw, hh⟩ := renderPlot_dims td htdw htdh args.images args.labels
    args.row_labels args.column_labels args.rows
    (divCeil args.images.length args.rows) first
  have hmono : (first.height + 50) * 1 ≤ (first.height + 50) * args.rows :=
    Nat.mul_le_mul_left _ hrows
  rw [Nat.mul_one] at hmono
  refine ⟨?_, ?_, leftPad_spec args.row_labels⟩
  · simp only [outWidth]
    rw [hw, Nat.mod_eq_of_lt hoW]
  · simp only [outHeight]
    rw [hh]
    by_cases hL : hasLabels args.labels args.row_labels args.column_labels = true
    · rw [if_pos hL, if_pos hL]
      rw [Nat.mod_eq_of_lt (by omega : first.height + 50 < U32),
        Nat.mod_eq_of_lt (by omega : (first.height + 50) * args.rows + 50 < U32)]
    · rw [if_neg hL, if_neg hL]
      have hmono2 : first.height * args.rows ≤ (first.height + 50) * args.rows :=
        Nat.mul_le_mul_right _ (by omega)
      rw [Nat.add_zero, Nat.add_zero,
        Nat.mod_eq_of_lt (by omega : first.height < U32),
        Nat.mod_eq_of_lt (by omega : first.height * args.rows < U32)]

/-- Witness for C5 at the spec's Scenario A: two 100 by 100 images in
one row with no labels give a 200 by 100 canvas. -/
theorem claim5_canvas_dims_witness :
    (argsA.images = imgA :: [imgB] ∧ 1 ≤ argsA.rows ∧ argsA.images.length < U32) ∧
    outWidth (save_image_plot trivialDraw argsA) = some 200 ∧
    outHeight (save_image_plot trivialDraw argsA) = some 100 := by
  have h := claim5_canvas_dims trivialDraw argsA imgA [imgB]
    (fun _ _ _ _ => rfl) (fun _ _ _ _ => rfl) rfl (by decide) (by decide)
    (Or.inl rfl) (Or.inl rfl) (Or.inl rfl) (by decide) (by decide)
  refine ⟨⟨rfl, by decide, by decide⟩, ?_, ?_⟩
  · exact h.1
  · exact h.2.1

set_option maxRecDepth 4000 in
/-- Scenario A reduces to two image copies onto a white 200 by 100
canvas, at origins `(0, 50)` and `(100, 50)`. -/
lemma save_image_plot_argsA :
    save_image_plot trivialDraw argsA =
      PlotOutcome.ok (copyImage (copyImage
        { width := 200, height := 100, pix := fun _ _ => { r := 255, g := 255, b := 255 } }
        imgA 0 50) imgB 100 50) := by
  have hF : save_image_plot trivialDraw argsA =
      PlotOutcome.ok (List.foldl (placeImage trivialDraw [] [] 2 100 100 100 0 50 30)
        { width := 200, height := 100, pix := fun _ _ => { r := 255, g := 255, b := 255 } }
        (List.enum [imgA, imgB])) := rfl
  have henum : List.enum [imgA, imgB] = [(0, imgA), (1, imgB)] := rfl
  have h1 : placeImage trivialDraw [] [] 2 100 100 100 0 50 30
      { width := 200, height := 100, pix := fun _ _ => { r := 255, g := 255, b := 255 } }
      (0, imgA) =
      copyImage
        { width := 200, height := 100, pix := fun _ _ => { r := 255, g := 255, b := 255 } }
        imgA 0 50 := rfl
  have h2 : ∀ c : Canvas,
      placeImage trivialDraw [] [] 2 100 100 100 0 50 30 c (1, imgB) =
        copyImage c imgB 100 50 := fun c => rfl
  rw [hF, henum, List.foldl_cons, List.foldl_cons, List.foldl_nil, h1, h2]

/-- C1 (code bug): at Scenario A's failing input — two 100 by 100
images, one row, no labels — the canvas is 200 by 100 as the claim
says, but the copy of image 0 does not begin at `(0, 0)`: the code adds
the 50-pixel `top_padding` to `y_start` unconditionally even though no
top band was reserved, so pixel `(0, 0)` stays background white and the
image's first pixel lands at `(0, 50)` (its bottom half is clipped
off-canvas). -/
theorem claim1_cell_origin_bug :
    outWidth (save_image_plot trivialDraw argsA) = some 200 ∧
    outHeight (save_image_plot trivialDraw argsA) = some 100 ∧
    outPix (save_image_plot trivialDraw argsA) 0 0 = some { r := 255, g := 255, b := 255 } ∧
    outPix (save_image_plot trivialDraw argsA) 0 50 = some { r := 10, g := 20, b := 30 } := by
  have hA := save_image_plot_argsA
  have hw1 : (copyImage
      { width := 200, height := 100, pix := fun _ _ => { r := 255, g := 255, b := 255 } }
      imgA 0 50).width = 200 := copyImage_width ..
  have hh1 : (copyImage
      { width := 200, height := 100, pix := fun _ _ => { r := 255, g := 255, b := 255 } }
      imgA 0 50).height = 100 := copyImage_height ..
  refine ⟨?_, ?_, ?_, ?_⟩
  · rw [hA]
    simp only [outWidth]
    rw [copyImage_width, hw1]
  · rw [hA]
    simp only [outHeight]
    rw [copyImage_height, hh1]
  · rw [hA]
    simp only [outPix]
    rw [copyImage_pix _ imgB 100 50 (by decide) (by decide) 0 0, if_neg (by decide),
      copyImage_pix _ imgA 0 50 (by decide) (by decide) 0 0, if_neg]
    intro hcon
    omega
  · rw [hA]
    simp only [outPix]
    rw [copyImage_pix _ imgB 100 50 (by decide) (by decide) 0 50, if_neg (by decide),
      copyImage_pix _ imgA 0 50 (by decide) (by decide) 0 50, if_pos (by decide)]
    rfl

set_option maxRecDepth 4000 in
/-- The three-image request reduces to three image copies onto a white
200 by 200 canvas, at origins `(0,50)`, `(100,50)` and `(0,150)`. -/
lemma save_image_plot_argsC :
    save_image_plot trivialDraw argsC =
      PlotOutcome.ok (copyImage (copyImage (copyImage
        { width := 200, height := 200, pix := fun _ _ => { r := 255, g := 255, b := 255 } }
        imgA 0 50) imgB 100 50) imgC 0 150) := by
  have hF : save_image_plot trivialDraw argsC =
      PlotOutcome.ok (List.foldl (placeImage trivialDraw [] [] 2 100 100 100 0 50 30)
        { width := 200, height := 200, pix := fun _ _ => { r := 255, g := 255, b := 255 } }
        (List.enum [imgA, imgB, imgC])) := rfl
  have henum : List.enum [imgA, imgB, imgC] = [(0, imgA), (1, imgB), (2, imgC)] := rfl
  have h1 : placeImage trivialDraw [] [] 2 100 100 100 0 50 30
      { width := 200, height := 200, pix := fun _ _ => { r := 255, g := 255, b := 255 } }
      (0, imgA) =
      copyImage
        { width := 200, height := 200, pix := fun _ _ => { r := 255, g := 255, b := 255 } }
        imgA 0 50 := rfl
  have h2 : ∀ c : Canvas,
      placeImage trivialDraw [] [] 2 100 100 100 0 50 30 c (1, imgB) =
        copyImage c imgB 100 50 := fun c => rfl
  have h3 : ∀ c : Canvas,
      placeImage trivialDraw [] [] 2 100 100 100 0 50 30 c (2, imgC) =
        copyImage c imgC 0 150 := fun c => rfl
  rw [hF, henum, List.foldl_cons, List.foldl_cons, List.foldl_cons, List.foldl_nil,
    h1, h2, h3]

/-- C6 counterexample: with reference cell 100 by 100 and grid
`rows = 2, cols = 2`, the 150-wide third image (cell `(1,0)`, x-range
`[0,100)`) writes its red pixels at `(120, 160)` — outside its own
cell and inside the never-assigned cell `(1,1)`, which therefore does
not stay background-colored; the copy is clipped only at canvas
bounds. -/
theorem claim6_clip_counterexample :
    outPix (save_image_plot trivialDraw argsC) 120 160 = some { r := 200, g := 0, b := 0 } ∧
    ({ r := 200, g := 0, b := 0 } : Rgb) ≠ { r := 255, g := 255, b := 255 } := by
  constructor
  · rw [save_image_plot_argsC]
    simp only [outPix]
    rw [copyImage_pix _ imgC 0 150 (by decide) (by decide) 120 160, if_pos]
    · rfl
    · refine ⟨by decide, by decide, by decide, by decide, ?_, ?_⟩
      · rw [copyImage_width, copyImage_width]
        decide
      · rw [copyImage_height, copyImage_height]
        decide
  · decide

/-- C6 amended: the image copy clips at the canvas bounds only — no
pixel outside the canvas is ever written (and the canvas dimensions are
unchanged) — but an image larger than the reference cell may write
into neighbouring cell regions inside the canvas, including cells with
no contributing image (as the counterexample shows). -/
theorem claim6_clip_amended (c : Canvas) (img : Img) (xs ys p q : ℕ)
    (hout : c.width ≤ p ∨ c.height ≤ q) :
    (copyImage c img xs ys).width = c.width ∧
    (copyImage c img xs ys).height = c.height ∧
    (copyImage c img xs ys).pix p q = c.pix p q :=
  ⟨copyImage_width .., copyImage_height .., copyImage_pix_oob c img xs ys p q hout⟩

/-- Witness for C6's amended claim: the out-of-canvas coordinate
`(200, 0)` is untouched by the oversized copy. -/
theorem claim6_clip_amended_witness :
    (({ width := 200, height := 200, pix := fun _ _ => { r := 255, g := 255, b := 255 } } :
        Canvas).width ≤ 200 ∨
      ({ width := 200, height := 200, pix := fun _ _ => { r := 255, g := 255, b := 255 } } :
        Canvas).height ≤ 0) ∧
    (copyImage
        { width := 200, height := 200, pix := fun _ _ => { r := 255, g := 255, b := 255 } }
        imgC 0 150).pix 200 0 =
      ({ width := 200, height := 200, pix := fun _ _ => { r := 255, g := 255, b := 255 } } :
        Canvas).pix 200 0 :=
  ⟨Or.inl (by decide),
   (claim6_clip_amended
     { width := 200, height := 200, pix := fun _ _ => { r := 255, g := 255, b := 255 } }
     imgC 0 150 200 0 (Or.inl (by decide))).2.2⟩
